import Mathlib

/-!
Shallow embedding of `readFile.c` (functions `Strchr`, `readFile`, `readLines`,
`freeLines`) and proofs about it.

Modelling conventions:
* A byte is a `Nat` (the code only ever compares bytes against `'\r' = 13`,
  `'\n' = 10` and `'\0' = 0`, so no width arithmetic occurs).
* A memory region / C string is a `List Nat`; reading one byte past the end of
  a list is reading the implicit terminator and yields `0` (`List.getD _ _ 0`).
  Every buffer the code scans with `Strchr` does contain its `'\0'` terminator
  inside the list, so this convention is never load-bearing.
* File-system and allocator effects are made explicit:
  `FileArg` distinguishes a NULL `fileName`, an `fopen` failure (with the
  `errno` the failed `fopen` set) and a readable file with given content;
  Booleans `mallocOk`, `readOk`, `shrinkOk`, `tableOk` say whether `malloc`,
  `fread`, the shrinking `realloc` and the line-table `malloc` succeed.
* `errno` is threaded explicitly: each function receives the caller's `errno`
  value `e` and the result records the `errno` value at return.
-/

/-- Linux errno value for EINVAL (invalid argument). -/
def EINVAL : Nat := 22

/-- Linux errno value for EFBIG (file too large). -/
def EFBIG : Nat := 27

/-- Linux errno value for ENOMEM (out of memory). -/
def ENOMEM : Nat := 12

/-- Linux errno value set by a failing `fread` in the model (EIO). -/
def readErrno : Nat := 5

/-- The static `Strchr` of readFile.c: the three-way unrolled scan
`for (; *s != c1; ++s) { if (!*s) return NULL; if (*++s == c) break; ... }`.
The argument list is the memory from the scan pointer onward; running off the
end of the list is reading the implicit `'\0'` terminator.  The result is the
offset of the returned pointer from the start pointer, `none` for NULL. -/
def Strchr (c : Nat) : List Nat → Option Nat
  | [] => if 0 = c then some 0 else none
  | x :: s1 =>
    if x = c then some 0
    else if x = 0 then none
    else
      match s1 with
      | [] => if 0 = c then some 1 else none
      | y :: s2 =>
        if y = c then some 1
        else if y = 0 then none
        else
          match s2 with
          | [] => if 0 = c then some 2 else none
          | z :: s3 =>
            if z = c then some 2
            else if z = 0 then none
            else (Strchr c s3).map (· + 3)

/-- Modelled from the spec of the C standard `strchr`: scan one byte at a
time for the first occurrence of `c`, stopping at (and also finding, when
`c = 0`) the terminator.  This is the reference behaviour `Strchr` is
compared against for the refinement claim. -/
def strchrRef : List Nat → Nat → Option Nat
  | [], c => if 0 = c then some 0 else none
  | x :: s, c =>
    if x = c then some 0
    else if x = 0 then none
    else (strchrRef s c).map (· + 1)

/-- The `fileName` argument together with what the file system does with it. -/
inductive FileArg where
  /-- `fileName == NULL`. -/
  | noName : FileArg
  /-- `fopen` fails and sets `errno` to `err`. -/
  | noFile (err : Nat) : FileArg
  /-- `fopen` succeeds on a readable file with the given bytes. -/
  | file (content : List Nat) : FileArg
  deriving DecidableEq

/-- Observable outcome of one `readFile` call. -/
structure RFResult where
  /-- The returned pointer: `none` for NULL, otherwise the bytes of the
  returned allocation that the call defined (content plus terminator). -/
  buf : Option (List Nat)
  /-- The value stored through the `length` out-parameter. -/
  length : Nat
  /-- The value of `errno` when the call returns. -/
  errnoOut : Nat
  /-- How many times `malloc` was called for the content buffer. -/
  mallocAttempts : Nat
  /-- Size in bytes of the allocation handed to the caller (0 on error). -/
  allocSize : Nat
  /-- Whether a successfully allocated content buffer was freed before
  returning (the error-path `free(buf)`). -/
  freedContent : Bool
  deriving DecidableEq

/-- The common exit sequence of `readFile`:
`if (errno) { n = 0; free(buf); buf = NULL; } else errno = e;`
followed by storing `n` and returning `buf`. -/
def rfFinish (buf : Option (List Nat)) (n : Nat) (errno e : Nat)
    (m : Nat) (alloc : Nat) : RFResult :=
  if errno ≠ 0 then ⟨none, 0, errno, m, 0, buf.isSome⟩
  else ⟨buf, n, e, m, alloc, false⟩

/-- The text-mode carriage-return compaction of `readFile`: find the first
`'\r'` with `Strchr`; if found at offset `i`, the in-place loop
`for (; s < end; ++s) if (*s != '\r') *d++ = *s;` (with `d` starting at `s`
and `end = buf + n`) leaves the bytes before `i` unchanged and copies the
non-`'\r'` bytes of `[i, fsize)` after them; if not found the content
(the first `fsize` bytes of the buffer) is unchanged. -/
def textCompact (b1 : List Nat) (fsize : Nat) : List Nat :=
  match Strchr 13 b1 with
  | none => b1.take fsize
  | some i => b1.take i ++ ((b1.drop i).take (fsize - i)).filter (· ≠ 13)

/-- The `readFile` function of readFile.c.  `e` is the caller's `errno`
(saved into the local `e` on entry); the Booleans describe which fallible
library calls succeed. -/
def readFile (arg : FileArg) (textMode terminate : Bool) (maxSize : Nat)
    (mallocOk readOk shrinkOk : Bool) (e : Nat) : RFResult :=
  match arg with
  | .noName => rfFinish none 0 EINVAL e 0 0
  | .noFile err => rfFinish none 0 err e 0 0
  | .file content =>
    -- if (textMode) terminate = TRUE;
    let terminate1 := if textMode then true else terminate
    -- t = !!terminate;
    let t : Nat := if terminate1 then 1 else 0
    -- fseek/ftell give the file size
    let fsize := content.length
    if maxSize = 0 ∨ fsize + t ≤ maxSize then
      if mallocOk then
        -- fread reads the whole file; with fsize = 0 nothing is read and
        -- no stream error can occur
        if readOk ∨ fsize = 0 then
          -- buffer after fread and the `buf[n] = '\0'` terminator store
          let b1 := if terminate1 then content ++ [0] else content
          if textMode then
            let c2 := textCompact b1 fsize
            let n2 := c2.length
            -- second `buf[n] = '\0'` store, then the shrinking realloc
            if n2 < fsize then
              if shrinkOk then rfFinish (some (c2 ++ [0])) n2 0 e 1 (n2 + t)
              else
                -- realloc failed and set errno; the code resets errno to 0
                -- and returns the original (larger) allocation
                rfFinish (some (c2 ++ [0])) n2 0 e 1 (fsize + t)
            else rfFinish (some (c2 ++ [0])) n2 0 e 1 (fsize + t)
          else
            rfFinish (some b1) fsize 0 e 1 (fsize + t)
        else
          -- ferror(in): the partially filled buffer is freed by the exit code
          rfFinish (some content) 0 readErrno e 1 (fsize + t)
      else rfFinish none 0 ENOMEM e 1 0
    else rfFinish none 0 EFBIG e 0 0

/-- Fuel-indexed model of the `readLines` counting loop
`for (p = buf; (p = Strchr(p, '\n')); ++p) ++lnCnt;`.
Each iteration restarts `Strchr` just after the found `'\n'`; the fuel only
bounds the number of iterations (one more than the buffer length always
suffices, see `countNLF_congr`). -/
def countNLF : Nat → List Nat → Nat
  | 0, _ => 0
  | fuel + 1, l =>
    match Strchr 10 l with
    | none => 0
    | some j => 1 + countNLF fuel (l.drop (j + 1))

/-- Number of `'\n'` found by the counting loop of `readLines` on buffer `l`. -/
def countNL (l : List Nat) : Nat := countNLF (l.length + 1) l

/-- Fuel-indexed model of the `readLines` fill loop
`for (p = buf; (p = Strchr(p, '\n'));) { *p++ = '\0'; if (*p) *ln++ = p; }`:
the returned list holds the offsets (from the current scan pointer) of the
line starts it records.  The byte looked at by `if (*p)` is one past the
found `'\n'` and is never one the loop has overwritten, so the original
buffer can be consulted. -/
def fillGoF : Nat → List Nat → List Nat
  | 0, _ => []
  | fuel + 1, l =>
    match Strchr 10 l with
    | none => []
    | some j =>
      (if l.getD (j + 1) 0 ≠ 0 then [j + 1] else [])
        ++ (fillGoF fuel (l.drop (j + 1))).map (· + (j + 1))

/-- Offsets of the line starts (after the first line) recorded by the fill
loop of `readLines` on buffer `l`. -/
def fillGo (l : List Nat) : List Nat := fillGoF (l.length + 1) l

/-- sizeof(char *) on the modelled (64-bit) platform. -/
def PTRSIZE : Nat := 8

/-- Observable outcome of one `readLines` call. -/
structure RLResult where
  /-- The returned table: `none` for NULL, otherwise the sequence of slots
  the code wrote (line pointers as buffer offsets, then the NULL sentinel). -/
  lines : Option (List (Option Nat))
  /-- The value stored through the `lineCount` out-parameter. -/
  lineCount : Nat
  /-- Number of table slots allocated (`lnCnt + 1` when the table `malloc`
  succeeded, 0 otherwise). -/
  allocated : Nat
  /-- The value of `errno` when the call returns. -/
  errnoOut : Nat
  /-- How many times the content buffer was freed inside `readLines`. -/
  contentFrees : Nat
  deriving DecidableEq

/-- The `readLines` function of readFile.c.  It calls `readFile` with
`textMode = terminate = 1` after setting `errno = 0`. -/
def readLines (arg : FileArg) (maxSize : Nat)
    (mallocOk readOk shrinkOk tableOk : Bool) (e : Nat) : RLResult :=
  let r := readFile arg true true maxSize mallocOk readOk shrinkOk 0
  match r.buf with
  | none =>
      -- readFile failed; its errno is still set, lines stays NULL
      if r.errnoOut ≠ 0 then ⟨none, 0, 0, r.errnoOut, 0⟩
      else ⟨none, 0, 0, e, 0⟩
  | some b =>
    let length := r.length
    -- lnCnt += length && buf[length-1] != '\n';  then the counting loop
    let lnCnt := (if length ≠ 0 ∧ b.getD (length - 1) 0 ≠ 10 then 1 else 0)
        + countNL b
    let linesSize := (lnCnt + 1) * PTRSIZE
    if maxSize = 0 ∨ linesSize + length + 1 ≤ maxSize then
      if tableOk then
        if length ≠ 0 then
          ⟨some ((0 :: fillGo b).map some ++ [none]), lnCnt, lnCnt + 1, e, 0⟩
        else
          -- empty content: free(buf); buf = NULL; table is just the sentinel
          ⟨some [none], lnCnt, lnCnt + 1, e, 1⟩
      else
        -- table malloc failed: exit code frees buf
        ⟨none, 0, 0, ENOMEM, 1⟩
    else
      -- (linesSize + length + 1) > maxSize
      ⟨none, 0, 0, EFBIG, 1⟩

/-- What one `freeLines` call frees. -/
structure FreeEffect where
  /-- How many times the content buffer is freed (`free(*lines)` when the
  first slot is a non-null pointer; `free(NULL)` is a no-op). -/
  contentFrees : Nat
  /-- Whether the table storage itself is freed. -/
  tableFreed : Bool
  deriving DecidableEq

/-- The `freeLines` function of readFile.c:
`if (lines) free(*lines); free(lines);`. -/
def freeLines : Option (List (Option Nat)) → FreeEffect
  | none => ⟨0, false⟩
  | some tbl =>
    match tbl.head? with
    | some (some _) => ⟨1, true⟩
    | _ => ⟨0, true⟩

/-- Whether the last byte of a buffer is `'\n'` (the condition
`buf[length-1] == '\n'` of `readLines`, phrased structurally). -/
def trailNL : List Nat → Bool
  | [] => false
  | [x] => x == 10
  | _ :: y :: t => trailNL (y :: t)

/-! ### Strchr versus the standard strchr -/

theorem Strchr_eq_ref (c : Nat) : ∀ s : List Nat, Strchr c s = strchrRef s c
  | [] => by simp [Strchr, strchrRef]
  | [x] => by
      simp only [Strchr, strchrRef]
      split_ifs <;> simp [strchrRef]
  | [x, y] => by
      simp only [Strchr, strchrRef]
      split_ifs <;> simp [strchrRef]
  | x :: y :: z :: t => by
      have ih := Strchr_eq_ref c t
      simp only [Strchr, strchrRef, ih]
      split_ifs <;> simp [strchrRef]

theorem strchrRef_cons_ne {x c : Nat} (l : List Nat) (h1 : x ≠ c) (h2 : x ≠ 0) :
    strchrRef (x :: l) c = (strchrRef l c).map (· + 1) := by
  simp [strchrRef, h1, h2]

theorem Strchr_cons_ne {x c : Nat} (l : List Nat) (h1 : x ≠ c) (h2 : x ≠ 0) :
    Strchr c (x :: l) = (Strchr c l).map (· + 1) := by
  rw [Strchr_eq_ref, Strchr_eq_ref, strchrRef_cons_ne l h1 h2]

theorem Strchr_cons_self (c : Nat) (l : List Nat) : Strchr c (c :: l) = some 0 := by
  rw [Strchr_eq_ref]; simp [strchrRef]

theorem Strchr_nil (c : Nat) : Strchr c [] = if 0 = c then some 0 else none := rfl

/-! ### The counting and fill loops -/

theorem Strchr_ten_ne_nil {l : List Nat} {j : Nat} (h : Strchr 10 l = some j) :
    l ≠ [] := by
  intro hl; subst hl; simp [Strchr] at h

theorem countNLF_succ (f : Nat) (l : List Nat) :
    countNLF (f + 1) l = match Strchr 10 l with
      | none => 0
      | some j => 1 + countNLF f (l.drop (j + 1)) := rfl

theorem fillGoF_succ (f : Nat) (l : List Nat) :
    fillGoF (f + 1) l = match Strchr 10 l with
      | none => []
      | some j =>
          (if l.getD (j + 1) 0 ≠ 0 then [j + 1] else [])
            ++ (fillGoF f (l.drop (j + 1))).map (· + (j + 1)) := rfl

theorem countNLF_congr : ∀ (f1 : Nat) (l : List Nat) (f2 : Nat),
    l.length < f1 → l.length < f2 → countNLF f1 l = countNLF f2 l
  | 0, _, _, h1, _ => absurd h1 (by omega)
  | _ + 1, _, 0, _, h2 => absurd h2 (by omega)
  | f1 + 1, l, f2 + 1, h1, h2 => by
      rw [countNLF_succ, countNLF_succ]
      cases h : Strchr 10 l with
      | none => rfl
      | some j =>
          have hl : 0 < l.length := List.length_pos.mpr (Strchr_ten_ne_nil h)
          have ih := countNLF_congr f1 (l.drop (j + 1)) f2
            (by simp only [List.length_drop]; omega)
            (by simp only [List.length_drop]; omega)
          simp only [ih]

theorem fillGoF_congr : ∀ (f1 : Nat) (l : List Nat) (f2 : Nat),
    l.length < f1 → l.length < f2 → fillGoF f1 l = fillGoF f2 l
  | 0, _, _, h1, _ => absurd h1 (by omega)
  | _ + 1, _, 0, _, h2 => absurd h2 (by omega)
  | f1 + 1, l, f2 + 1, h1, h2 => by
      rw [fillGoF_succ, fillGoF_succ]
      cases h : Strchr 10 l with
      | none => rfl
      | some j =>
          have hl : 0 < l.length := List.length_pos.mpr (Strchr_ten_ne_nil h)
          have ih := fillGoF_congr f1 (l.drop (j + 1)) f2
            (by simp only [List.length_drop]; omega)
            (by simp only [List.length_drop]; omega)
          simp only [ih]

theorem countNL_nil : countNL [] = 0 := rfl

theorem countNL_cons_10 (l : List Nat) : countNL (10 :: l) = 1 + countNL l := by
  show countNLF (l.length + 1 + 1) (10 :: l) = 1 + countNL l
  rw [countNLF_succ, Strchr_cons_self]
  rfl

theorem countNL_cons_ne {x : Nat} (l : List Nat) (h1 : x ≠ 0) (h2 : x ≠ 10) :
    countNL (x :: l) = countNL l := by
  show countNLF (l.length + 1 + 1) (x :: l) = countNLF (l.length + 1) l
  rw [countNLF_succ, countNLF_succ, Strchr_cons_ne l h2 h1]
  cases h : Strchr 10 l with
  | none => simp
  | some j =>
      have hl : 0 < l.length := List.length_pos.mpr (Strchr_ten_ne_nil h)
      have hc := countNLF_congr (l.length + 1) (l.drop (j + 1)) l.length
        (by simp only [List.length_drop]; omega)
        (by simp only [List.length_drop]; omega)
      simp only [Option.map_some', List.drop_succ_cons, hc]

theorem fillGo_nil : fillGo [] = [] := rfl

theorem fillGo_cons_10 (l : List Nat) :
    fillGo (10 :: l) =
      (if l.getD 0 0 ≠ 0 then [1] else []) ++ (fillGo l).map (· + 1) := by
  show fillGoF (l.length + 1 + 1) (10 :: l) = _
  rw [fillGoF_succ, Strchr_cons_self]
  rfl

theorem fillGo_cons_ne {x : Nat} (l : List Nat) (h1 : x ≠ 0) (h2 : x ≠ 10) :
    fillGo (x :: l) = (fillGo l).map (· + 1) := by
  show fillGoF (l.length + 1 + 1) (x :: l) = (fillGoF (l.length + 1) l).map (· + 1)
  rw [fillGoF_succ, fillGoF_succ, Strchr_cons_ne l h2 h1]
  cases h : Strchr 10 l with
  | none => simp
  | some j =>
      have hl : 0 < l.length := List.length_pos.mpr (Strchr_ten_ne_nil h)
      have hf := fillGoF_congr (l.length + 1) (l.drop (j + 1)) l.length
        (by simp only [List.length_drop]; omega)
        (by simp only [List.length_drop]; omega)
      simp only [Option.map_some', List.getD_cons_succ, List.drop_succ_cons, hf,
        List.map_append, List.map_map]
      congr 1
      split_ifs <;> simp [Nat.add_assoc]

/-! ### Behaviour on NUL-free content -/

theorem filter_len_count (l : List Nat) :
    (l.filter (· ≠ 13)).length + l.count 13 = l.length := by
  induction l with
  | nil => rfl
  | cons x t ih =>
      by_cases h : x = 13
      · subst h
        rw [List.count_cons_self, List.filter_cons_of_neg (by simp)]
        simp only [List.length_cons]
        omega
      · rw [List.count_cons_of_ne (Ne.symm h), List.filter_cons_of_pos (by simpa using h)]
        simp only [List.length_cons]
        omega

theorem zero_not_mem_filter {l : List Nat} (h : 0 ∉ l) : 0 ∉ l.filter (· ≠ 13) :=
  fun hm => h (List.mem_of_mem_filter hm)

theorem strchrRef_append_none {ch : Nat} (hch : ch ≠ 0) :
    ∀ c : List Nat, 0 ∉ c → strchrRef (c ++ [0]) ch = none → ch ∉ c
  | [], _, _ => by simp
  | x :: c, h0, hS => by
      have hx : x ≠ 0 := fun h => h0 (h ▸ List.mem_cons_self x c)
      have h0c : 0 ∉ c := fun h => h0 (List.mem_cons_of_mem x h)
      rw [List.cons_append, strchrRef] at hS
      by_cases hxc : x = ch
      · simp [hxc] at hS
      · simp only [hxc, if_false, hx, Option.map_eq_none'] at hS
        have hrec := strchrRef_append_none hch c h0c hS
        simp only [List.mem_cons, not_or]
        exact ⟨fun h => hxc h.symm, hrec⟩

theorem textCompact_nulfree : ∀ c : List Nat, 0 ∉ c →
    textCompact (c ++ [0]) c.length = c.filter (· ≠ 13)
  | [], _ => by decide
  | x :: c, h0 => by
      have hx : x ≠ 0 := fun h => h0 (h ▸ List.mem_cons_self x c)
      have h0c : 0 ∉ c := fun h => h0 (List.mem_cons_of_mem x h)
      have ih := textCompact_nulfree c h0c
      by_cases h13 : x = 13
      · subst h13
        rw [textCompact, show ((13 : Nat) :: c) ++ [0] = 13 :: (c ++ [0]) from rfl,
          Strchr_cons_self]
        simp only [List.take_zero, List.drop_zero, List.nil_append,
          List.length_cons, Nat.sub_zero, List.take_succ_cons]
        rw [List.take_left c [0]]
      · have hS2 : Strchr 13 ((x :: c) ++ [0]) = (Strchr 13 (c ++ [0])).map (· + 1) := by
          rw [List.cons_append]; exact Strchr_cons_ne _ h13 hx
        cases hS : Strchr 13 (c ++ [0]) with
        | none =>
            have h13c : (13 : Nat) ∉ c :=
              strchrRef_append_none (by decide) c h0c (by rw [← Strchr_eq_ref]; exact hS)
            rw [textCompact, hS2, hS]
            simp only [Option.map_none']
            rw [List.take_left (x :: c) [0]]
            refine (List.filter_eq_self.mpr ?_).symm
            intro a ha
            rcases List.mem_cons.mp ha with h | h
            · subst h; simpa using h13
            · have : a ≠ 13 := fun hq => h13c (hq ▸ h)
              simpa using this
        | some i =>
            rw [textCompact, hS] at ih
            rw [textCompact, hS2, hS]
            simp only [Option.map_some', List.cons_append, List.take_succ_cons,
              List.drop_succ_cons, List.length_cons, Nat.succ_sub_succ]
            rw [List.filter_cons_of_pos (by simpa using h13)]
            exact congrArg (x :: ·) ih

theorem countNL_append_nulfree : ∀ c : List Nat, 0 ∉ c →
    countNL (c ++ [0]) = c.count 10
  | [], _ => by decide
  | x :: c, h0 => by
      have hx : x ≠ 0 := fun h => h0 (h ▸ List.mem_cons_self x c)
      have h0c : 0 ∉ c := fun h => h0 (List.mem_cons_of_mem x h)
      have ih := countNL_append_nulfree c h0c
      rw [List.cons_append]
      by_cases h10 : x = 10
      · subst h10
        rw [countNL_cons_10, ih, List.count_cons_self]
        omega
      · rw [countNL_cons_ne _ hx h10, ih, List.count_cons_of_ne (Ne.symm h10)]

theorem fillGo_append_nulfree : ∀ c : List Nat, 0 ∉ c →
    (fillGo (c ++ [0])).length + (if trailNL c then 1 else 0) = c.count 10
  | [], _ => by decide
  | x :: c, h0 => by
      have hx : x ≠ 0 := fun h => h0 (h ▸ List.mem_cons_self x c)
      have h0c : 0 ∉ c := fun h => h0 (List.mem_cons_of_mem x h)
      have ih := fillGo_append_nulfree c h0c
      rw [List.cons_append]
      by_cases h10 : x = 10
      · subst h10
        rw [fillGo_cons_10, List.count_cons_self]
        cases c with
        | nil => decide
        | cons y t =>
            have hy : y ≠ 0 := fun h => h0c (h ▸ List.mem_cons_self y t)
            rw [List.cons_append] at ih ⊢
            rw [List.getD_cons_zero, if_pos hy]
            rw [show trailNL (10 :: y :: t) = trailNL (y :: t) from rfl]
            simp only [List.length_append, List.length_map, List.length_cons,
              List.length_nil]
            omega
      · rw [fillGo_cons_ne _ hx h10, List.count_cons_of_ne (Ne.symm h10)]
        cases c with
        | nil =>
            have hf0 : fillGo (([] : List Nat) ++ [0]) = [] := rfl
            have ht : trailNL [x] = false := by simp [trailNL, h10]
            rw [hf0, ht]
            simp
        | cons y t =>
            rw [show trailNL (x :: y :: t) = trailNL (y :: t) from rfl]
            simp only [List.length_map]
            exact ih

theorem trailNL_getD : ∀ c : List Nat, c ≠ [] →
    ((c ++ [0]).getD (c.length - 1) 0 = 10 ↔ trailNL c = true)
  | [], h => absurd rfl h
  | [x], _ => by
      simp [trailNL]
  | x :: y :: t, _ => by
      have ihx := trailNL_getD (y :: t) (by simp)
      rw [show trailNL (x :: y :: t) = trailNL (y :: t) from rfl]
      simp only [List.cons_append, List.length_cons, Nat.add_sub_cancel] at ihx ⊢
      rw [List.getD_cons_succ]
      exact ihx

theorem trailNL_getLast : ∀ c : List Nat, (trailNL c = true ↔ c.getLast? = some 10)
  | [] => by simp [trailNL]
  | [x] => by simp [trailNL]
  | x :: y :: t => by
      rw [show trailNL (x :: y :: t) = trailNL (y :: t) from rfl,
        List.getLast?_cons_cons]
      exact trailNL_getLast (y :: t)

theorem fillGo_chain : ∀ c : List Nat, 0 ∉ c →
    List.Chain' (· < ·) (fillGo (c ++ [0])) ∧ ∀ a ∈ fillGo (c ++ [0]), 1 ≤ a
  | [], _ => by constructor <;> decide
  | x :: c, h0 => by
      have hx : x ≠ 0 := fun h => h0 (h ▸ List.mem_cons_self x c)
      have h0c : 0 ∉ c := fun h => h0 (List.mem_cons_of_mem x h)
      have ih := fillGo_chain c h0c
      have hmap : List.Chain' (· < ·) ((fillGo (c ++ [0])).map (· + 1)) :=
        (List.chain'_map _).mpr (ih.1.imp fun a b h => by omega)
      have hmem : ∀ a ∈ (fillGo (c ++ [0])).map (· + 1), 1 ≤ a := by
        intro a ha
        rcases List.mem_map.mp ha with ⟨b, _, rfl⟩
        omega
      rw [List.cons_append]
      by_cases h10 : x = 10
      · subst h10
        rw [fillGo_cons_10]
        by_cases hg : (c ++ [0]).getD 0 0 ≠ 0
        · rw [if_pos hg]
          refine ⟨?_, ?_⟩
          · rw [show ([1] : List Nat) ++ (fillGo (c ++ [0])).map (· + 1)
                = 1 :: (fillGo (c ++ [0])).map (· + 1) from rfl]
            rw [List.chain'_cons']
            refine ⟨?_, hmap⟩
            intro y hy
            rw [List.head?_map] at hy
            cases hF : (fillGo (c ++ [0])).head? with
            | none => rw [hF] at hy; simp at hy
            | some b =>
                rw [hF] at hy
                simp only [Option.map_some', Option.mem_def, Option.some.injEq] at hy
                have hb : b ∈ fillGo (c ++ [0]) := List.mem_of_mem_head? hF
                have := ih.2 b hb
                omega
          · intro a ha
            rcases List.mem_append.mp ha with h | h
            · simp at h; omega
            · exact hmem a h
        · rw [if_neg hg]
          rw [show (([] : List Nat) ++ (fillGo (c ++ [0])).map (· + 1))
              = (fillGo (c ++ [0])).map (· + 1) from rfl]
          exact ⟨hmap, hmem⟩
      · rw [fillGo_cons_ne _ hx h10]
        exact ⟨hmap, hmem⟩

/-! ### Characterizing successful calls -/

theorem readFile_text_success (content : List Nat) (term : Bool) (ms : Nat)
    (mo ro so : Bool) (e : Nat) (b : List Nat) (h0 : 0 ∉ content)
    (hb : (readFile (FileArg.file content) true term ms mo ro so e).buf = some b) :
    b = content.filter (· ≠ 13) ++ [0]
    ∧ (readFile (FileArg.file content) true term ms mo ro so e).length
        = (content.filter (· ≠ 13)).length := by
  have hTC := textCompact_nulfree content h0
  simp only [readFile, if_true] at hb ⊢
  split_ifs at hb ⊢ <;>
    simp_all [rfFinish, EFBIG, ENOMEM, readErrno, hTC]

theorem readLines_success (content : List Nat) (ms : Nat) (mo ro so tOk : Bool)
    (e : Nat) (tbl : List (Option Nat)) (h0 : 0 ∉ content)
    (hs : (readLines (FileArg.file content) ms mo ro so tOk e).lines = some tbl) :
    (content.filter (· ≠ 13) = []
       ∧ readLines (FileArg.file content) ms mo ro so tOk e
           = ⟨some [none], 0, 1, e, 1⟩)
    ∨ (content.filter (· ≠ 13) ≠ []
       ∧ readLines (FileArg.file content) ms mo ro so tOk e
           = ⟨some ((0 :: fillGo (content.filter (· ≠ 13) ++ [0])).map some ++ [none]),
              (if trailNL (content.filter (· ≠ 13)) then 0 else 1)
                + (content.filter (· ≠ 13)).count 10,
              ((if trailNL (content.filter (· ≠ 13)) then 0 else 1)
                + (content.filter (· ≠ 13)).count 10) + 1,
              e, 0⟩) := by
  have h0' : 0 ∉ content.filter (· ≠ 13) := zero_not_mem_filter h0
  cases hbuf : (readFile (FileArg.file content) true true ms mo ro so 0).buf with
  | none =>
      simp only [readLines, hbuf] at hs
      split at hs <;> simp at hs
  | some b =>
      obtain ⟨hb1, hb2⟩ := readFile_text_success content true ms mo ro so 0 b h0 hbuf
      subst hb1
      have hcnt := countNL_append_nulfree _ h0'
      simp only [readLines, hbuf, hb2, hcnt] at hs ⊢
      by_cases hemp : content.filter (· ≠ 13) = []
      · left
        refine ⟨hemp, ?_⟩
        rw [hemp] at hs ⊢
        simp only [List.length_nil, List.count_nil] at hs ⊢
        split_ifs at hs ⊢ <;> simp_all
      · right
        refine ⟨hemp, ?_⟩
        have hlen : (content.filter (· ≠ 13)).length ≠ 0 := by
          simpa [List.length_eq_zero] using hemp
        have htr := trailNL_getD _ hemp
        have hif : (if (content.filter (· ≠ 13)).length ≠ 0
              ∧ (content.filter (· ≠ 13) ++ [0]).getD
                  ((content.filter (· ≠ 13)).length - 1) 0 ≠ 10 then 1 else 0)
            = (if trailNL (content.filter (· ≠ 13)) then 0 else 1) := by
          by_cases ht : trailNL (content.filter (· ≠ 13)) = true
          · rw [if_neg (fun hc => hc.2 (htr.mpr ht)), if_pos ht]
          · rw [if_pos ⟨hlen, fun hc => ht (htr.mp hc)⟩, if_neg ht]
        rw [hif] at hs ⊢
        split_ifs at hs ⊢ <;> simp_all [Nat.add_comm]

theorem getD_append_self (l : List Nat) : (l ++ [0]).getD l.length 0 = 0 := by
  rw [List.getD_append_right l [0] 0 l.length (le_refl _)]
  simp

theorem rfFinish0 (bu : Option (List Nat)) (n e m al : Nat) :
    rfFinish bu n 0 e m al = ⟨bu, n, e, m, al, false⟩ := by
  simp [rfFinish]

theorem rfFinish_success {bu : Option (List Nat)} {n errno e m al : Nat}
    (h : (rfFinish bu n errno e m al).buf.isSome = true) :
    (rfFinish bu n errno e m al).errnoOut = e := by
  unfold rfFinish at h ⊢
  split_ifs at h ⊢
  · simp at h
  · rfl

theorem readFile_efbig (content : List Nat) (tm term : Bool) (ms : Nat)
    (mo ro so : Bool) (e : Nat) (h1 : ms ≠ 0)
    (h2 : ms < content.length + (if tm = true ∨ term = true then 1 else 0)) :
    readFile (FileArg.file content) tm term ms mo ro so e
      = ⟨none, 0, EFBIG, 0, 0, false⟩ := by
  have hc : ¬(ms = 0 ∨ content.length
      + (if (if tm = true then true else term) = true then 1 else 0) ≤ ms) := by
    cases tm <;> cases term <;> simp_all
  simp only [readFile, if_neg hc]
  simp [rfFinish, EFBIG]

theorem readFile_nomem (content : List Nat) (tm term : Bool) (ms : Nat)
    (ro so : Bool) (e : Nat)
    (hsz : ms = 0 ∨ content.length
        + (if tm = true ∨ term = true then 1 else 0) ≤ ms) :
    readFile (FileArg.file content) tm term ms false ro so e
      = ⟨none, 0, ENOMEM, 1, 0, false⟩ := by
  have hc : ms = 0 ∨ content.length
      + (if (if tm = true then true else term) = true then 1 else 0) ≤ ms := by
    cases tm <;> cases term <;> simp_all
  simp only [readFile, if_pos hc]
  simp [rfFinish, ENOMEM]

theorem readFile_readerr (content : List Nat) (tm term : Bool) (ms : Nat)
    (so : Bool) (e : Nat) (hne : content ≠ [])
    (hsz : ms = 0 ∨ content.length
        + (if tm = true ∨ term = true then 1 else 0) ≤ ms) :
    readFile (FileArg.file content) tm term ms true false so e
      = ⟨none, 0, readErrno, 1, 0, true⟩ := by
  have hc : ms = 0 ∨ content.length
      + (if (if tm = true then true else term) = true then 1 else 0) ≤ ms := by
    cases tm <;> cases term <;> simp_all
  have hlen : ¬(false = true ∨ content.length = 0) := by
    simp [List.length_eq_zero, hne]
  simp only [readFile, if_pos hc, if_neg hlen]
  simp [rfFinish, readErrno]

/-- C9: the internal `Strchr` (a three-way unrolled loop) is extensionally
equal to the C standard `strchr` modelled by `strchrRef`: for every
null-terminated string and every character `c` (a byte value) it returns the
offset of the first occurrence of `c`, returns the offset of the terminator
itself when `c` is `'\0'`, and returns NULL (`none`) when `c` does not occur
before the terminator. -/
theorem claim_C9 (s : List Nat) (c : Nat) : Strchr c s = strchrRef s c :=
  Strchr_eq_ref c s

/-- C1, corrected: restricted to files that contain no NUL (`0x00`) byte.
For such a file with `N` carriage-return bytes, `readFile` with
`textMode ≠ 0` reports length `fileSize - N` and the returned content is the
file with every carriage return removed (followed by the terminator).  The
restriction is needed because `Strchr` stops at the first NUL byte, so a NUL
before the first carriage return prevents any compaction (see
`claim_C1_counterexample`). -/
theorem claim_C1 (content : List Nat) (term : Bool) (ms : Nat)
    (mo ro so : Bool) (e : Nat) (b : List Nat) (h0 : 0 ∉ content)
    (hb : (readFile (FileArg.file content) true term ms mo ro so e).buf = some b) :
    (readFile (FileArg.file content) true term ms mo ro so e).length
        = content.length - content.count 13
    ∧ b = content.filter (· ≠ 13) ++ [0] := by
  obtain ⟨h1, h2⟩ := readFile_text_success content term ms mo ro so e b h0 hb
  refine ⟨?_, h1⟩
  rw [h2]
  have := filter_len_count content
  omega

/-- C1 counterexample: the two-byte file `0x00 0x0D` contains one carriage
return, but `readFile` in text mode reports length `2`, not `2 - 1 = 1`:
`Strchr(buf, 13)` hits the NUL at offset 0 and returns NULL, so no
carriage return is removed. -/
theorem claim_C1_counterexample :
    (readFile (FileArg.file [0, 13]) true true 0 true true true 0).length
      ≠ ([0, 13] : List Nat).length - ([0, 13] : List Nat).count 13 := by decide

theorem claim_C1_witness :
    (0 ∉ ([97, 13, 10] : List Nat))
    ∧ ((readFile (FileArg.file [97, 13, 10]) true true 0 true true true 0).buf
        = some [97, 10, 0])
    ∧ ((readFile (FileArg.file [97, 13, 10]) true true 0 true true true 0).length
          = ([97, 13, 10] : List Nat).length - ([97, 13, 10] : List Nat).count 13
        ∧ [97, 10, 0] = ([97, 13, 10] : List Nat).filter (· ≠ 13) ++ [0]) :=
  ⟨by decide, by decide,
    claim_C1 [97, 13, 10] true 0 true true true 0 [97, 10, 0] (by decide) (by decide)⟩

/-- C5: on every successful `readFile` call with `terminate ≠ 0` (or with
`textMode ≠ 0`, which forces it), the byte at offset `length` of the returned
buffer is the null terminator and is not counted in the reported length —
also after the in-place carriage-return compaction shortens the content. -/
theorem claim_C5 (content : List Nat) (tm term : Bool) (ms : Nat)
    (mo ro so : Bool) (e : Nat) (b : List Nat)
    (hterm : tm = true ∨ term = true)
    (hb : (readFile (FileArg.file content) tm term ms mo ro so e).buf = some b) :
    b.getD ((readFile (FileArg.file content) tm term ms mo ro so e).length) 0 = 0
    ∧ b.length
        = (readFile (FileArg.file content) tm term ms mo ro so e).length + 1 := by
  cases tm with
  | true =>
      simp only [readFile, if_true] at hb ⊢
      split_ifs at hb ⊢ <;>
        first
          | (rw [rfFinish0] at hb ⊢
             obtain rfl := Option.some.inj hb
             exact ⟨getD_append_self _, by simp⟩)
          | exact absurd hb (by simp [rfFinish, EFBIG, ENOMEM, readErrno])
  | false =>
      have hterm2 : term = true := by
        rcases hterm with h | h
        · exact absurd h (by simp)
        · exact h
      subst hterm2
      simp [readFile] at hb ⊢
      split_ifs at hb ⊢ <;>
        first
          | (rw [rfFinish0] at hb ⊢
             obtain rfl := Option.some.inj hb
             exact ⟨by simp, by simp⟩)
          | exact absurd hb (by simp [rfFinish, EFBIG, ENOMEM, readErrno])

theorem claim_C5_witness :
    ((true : Bool) = true ∨ (false : Bool) = true)
    ∧ ((readFile (FileArg.file [97, 13]) true false 0 true true true 0).buf
        = some [97, 0])
    ∧ (([97, 0] : List Nat).getD
          ((readFile (FileArg.file [97, 13]) true false 0 true true true 0).length) 0 = 0
        ∧ ([97, 0] : List Nat).length
            = (readFile (FileArg.file [97, 13]) true false 0 true true true 0).length + 1) :=
  ⟨by decide, by decide,
    claim_C5 [97, 13] true false 0 true true true 0 [97, 0] (by decide) (by decide)⟩

/-- C6: for every file and every non-zero `maxSize` with
`fileSize + terminatorAllowance > maxSize`, `readFile` fails with `EFBIG`,
returns NULL, reports zero length and performs no content allocation. -/
theorem claim_C6 (content : List Nat) (tm term : Bool) (ms : Nat)
    (mo ro so : Bool) (e : Nat) (h1 : ms ≠ 0)
    (h2 : ms < content.length + (if tm = true ∨ term = true then 1 else 0)) :
    readFile (FileArg.file content) tm term ms mo ro so e
      = ⟨none, 0, EFBIG, 0, 0, false⟩ :=
  readFile_efbig content tm term ms mo ro so e h1 h2

theorem claim_C6_witness :
    ((1 : Nat) ≠ 0
      ∧ (1 : Nat) < ([5, 6, 7] : List Nat).length
          + (if (false : Bool) = true ∨ (false : Bool) = true then 1 else 0))
    ∧ readFile (FileArg.file [5, 6, 7]) false false 1 true true true 3
        = ⟨none, 0, EFBIG, 0, 0, false⟩ :=
  ⟨⟨by decide, by decide⟩,
    claim_C6 [5, 6, 7] false false 1 true true true 3 (by decide) (by decide)⟩

/-- C8: for every zero-length file, `readFile` succeeds (when `malloc`
succeeds) and returns a non-null, zero-length, freeable buffer — also with
`textMode = terminate = 0`, where the allocation request is for zero bytes. -/
theorem claim_C8 (tm term : Bool) (ms : Nat) (ro so : Bool) (e : Nat) :
    (readFile (FileArg.file []) tm term ms true ro so e).buf
        = some (if tm = true ∨ term = true then [0] else [])
    ∧ (readFile (FileArg.file []) tm term ms true ro so e).length = 0
    ∧ (readFile (FileArg.file []) tm term ms true ro so e).errnoOut = e := by
  have hsz : ∀ tt : Nat, tt ≤ 1 → (ms = 0 ∨ ([] : List Nat).length + tt ≤ ms) := by
    intro tt htt
    cases ms with
    | zero => exact Or.inl rfl
    | succ k => exact Or.inr (by simp; omega)
  cases tm <;> cases term <;>
    · simp only [readFile]
      rw [if_pos (hsz _ (by decide))]
      simp [rfFinish, show textCompact [0] 0 = [] from rfl]

/-- C7: on every error path — invalid path, open failure, size-limit
failure, allocation failure, read error — `readFile` returns NULL and stores
0 through `length`; a buffer that was already allocated is freed before
returning (`freedContent`), and NULL is always paired with zero length. -/
theorem claim_C7 (tm term : Bool) (ms : Nat) (mo ro so : Bool) (e : Nat) :
    (readFile FileArg.noName tm term ms mo ro so e
        = ⟨none, 0, EINVAL, 0, 0, false⟩)
    ∧ (∀ err : Nat, err ≠ 0 →
        readFile (FileArg.noFile err) tm term ms mo ro so e
          = ⟨none, 0, err, 0, 0, false⟩)
    ∧ (∀ content : List Nat, ms ≠ 0 →
        ms < content.length + (if tm = true ∨ term = true then 1 else 0) →
        readFile (FileArg.file content) tm term ms mo ro so e
          = ⟨none, 0, EFBIG, 0, 0, false⟩)
    ∧ (∀ content : List Nat, mo = false →
        (ms = 0 ∨ content.length
            + (if tm = true ∨ term = true then 1 else 0) ≤ ms) →
        readFile (FileArg.file content) tm term ms mo ro so e
          = ⟨none, 0, ENOMEM, 1, 0, false⟩)
    ∧ (∀ content : List Nat, mo = true → ro = false → content ≠ [] →
        (ms = 0 ∨ content.length
            + (if tm = true ∨ term = true then 1 else 0) ≤ ms) →
        readFile (FileArg.file content) tm term ms mo ro so e
          = ⟨none, 0, readErrno, 1, 0, true⟩)
    ∧ (∀ arg : FileArg,
        (readFile arg tm term ms mo ro so e).buf = none →
        (readFile arg tm term ms mo ro so e).length = 0) := by
  refine ⟨?_, ?_, ?_, ?_, ?_, ?_⟩
  · simp [readFile, rfFinish, EINVAL]
  · intro err h
    simp [readFile, rfFinish, h]
  · intro content h1 h2
    exact readFile_efbig content tm term ms mo ro so e h1 h2
  · intro content hmo hsz
    subst hmo
    exact readFile_nomem content tm term ms ro so e hsz
  · intro content hmo hro hne hsz
    subst hmo; subst hro
    exact readFile_readerr content tm term ms so e hne hsz
  · intro arg h
    cases arg with
    | noName => simp [readFile, rfFinish, EINVAL]
    | noFile err =>
        simp only [readFile, rfFinish] at h ⊢
        split_ifs at h ⊢ <;> rfl
    | file content =>
        simp only [readFile] at h ⊢
        split_ifs at h ⊢ <;>
          simp_all [rfFinish, EFBIG, ENOMEM, readErrno]

theorem claim_C7_witness :
    ((2 : Nat) ≠ 0)
    ∧ readFile (FileArg.noFile 2) false false 0 true true true 7
        = ⟨none, 0, 2, 0, 0, false⟩ :=
  ⟨by decide, (claim_C7 false false 0 true true true 7).2.1 2 (by decide)⟩

/-- C10: on every successful call, `readFile` and `readLines` restore the
caller's entry `errno` — for every value of `shrinkOk`, i.e. also when the
non-fatal shrinking `realloc` failed and transiently set `errno`. -/
theorem claim_C10 :
    (∀ (arg : FileArg) (tm term : Bool) (ms : Nat) (mo ro so : Bool) (e : Nat),
        (readFile arg tm term ms mo ro so e).buf.isSome = true →
        (readFile arg tm term ms mo ro so e).errnoOut = e)
    ∧ (∀ (arg : FileArg) (ms : Nat) (mo ro so tOk : Bool) (e : Nat),
        (readLines arg ms mo ro so tOk e).lines.isSome = true →
        (readLines arg ms mo ro so tOk e).errnoOut = e) := by
  constructor
  · intro arg tm term ms mo ro so e h
    cases arg with
    | noName => exact rfFinish_success h
    | noFile err => exact rfFinish_success h
    | file content =>
        simp only [readFile] at h ⊢
        split_ifs at h ⊢ <;> exact rfFinish_success h
  · intro arg ms mo ro so tOk e h
    revert h
    simp only [readLines]
    split
    · split_ifs <;> simp
    · split_ifs <;> simp

theorem claim_C10_witness :
    ((readFile (FileArg.file [5]) false false 0 true true true 99).buf.isSome = true
      ∧ (readFile (FileArg.file [5]) false false 0 true true true 99).errnoOut = 99)
    ∧ ((readLines (FileArg.file [97]) 0 true true true true 42).lines.isSome = true
      ∧ (readLines (FileArg.file [97]) 0 true true true true 42).errnoOut = 42) :=
  ⟨⟨by decide, claim_C10.1 (FileArg.file [5]) false false 0 true true true 99 (by decide)⟩,
   ⟨by decide, claim_C10.2 (FileArg.file [97]) 0 true true true true 42 (by decide)⟩⟩

/-- C2, corrected: restricted to files that contain no NUL (`0x00`) byte.
For such a file, `readLines` reports a line count equal to the number of
line-feed bytes in the carriage-return-free content, plus one more line when
that content is non-empty and its last byte is not a line feed.  The
restriction is needed because the counting loop's `Strchr` stops at an
embedded NUL and misses every line feed after it (see
`claim_C2_counterexample`). -/
theorem claim_C2 (content : List Nat) (ms : Nat) (mo ro so tOk : Bool) (e : Nat)
    (h0 : 0 ∉ content)
    (hs : (readLines (FileArg.file content) ms mo ro so tOk e).lines.isSome = true) :
    (readLines (FileArg.file content) ms mo ro so tOk e).lineCount
      = (content.filter (· ≠ 13)).count 10
        + (if content.filter (· ≠ 13) ≠ []
              ∧ (content.filter (· ≠ 13)).getLast? ≠ some 10
           then 1 else 0) := by
  obtain ⟨tbl, htbl⟩ := Option.isSome_iff_exists.mp hs
  rcases readLines_success content ms mo ro so tOk e tbl h0 htbl with
    ⟨hemp, heq⟩ | ⟨hne, heq⟩
  · rw [heq, hemp]
    simp
  · rw [heq]
    show (if trailNL (content.filter (· ≠ 13)) then 0 else 1)
        + (content.filter (· ≠ 13)).count 10 = _
    have hLast := trailNL_getLast (content.filter (· ≠ 13))
    by_cases ht : trailNL (content.filter (· ≠ 13)) = true
    · rw [if_pos ht, if_neg (fun hc => hc.2 (hLast.mp ht))]
      omega
    · rw [if_neg ht, if_pos ⟨hne, fun hc => ht (hLast.mpr hc)⟩]
      omega

/-- C2 counterexample: the file `0x0A 0x00 0x0A` has two line feeds, none of
them a trailing-line case by the claim's formula (the content ends in a line
feed), so the claim predicts 2 lines; the code's counting loop stops at the
embedded NUL and reports 1. -/
theorem claim_C2_counterexample :
    (readLines (FileArg.file [10, 0, 10]) 0 true true true true 0).lineCount
      ≠ (([10, 0, 10] : List Nat).filter (· ≠ 13)).count 10
        + (if ([10, 0, 10] : List Nat).filter (· ≠ 13) ≠ []
              ∧ (([10, 0, 10] : List Nat).filter (· ≠ 13)).getLast? ≠ some 10
           then 1 else 0) := by decide

theorem claim_C2_witness :
    (0 ∉ ([97, 13, 10] : List Nat))
    ∧ ((readLines (FileArg.file [97, 13, 10]) 0 true true true true 5).lines.isSome
        = true)
    ∧ ((readLines (FileArg.file [97, 13, 10]) 0 true true true true 5).lineCount
        = (([97, 13, 10] : List Nat).filter (· ≠ 13)).count 10
          + (if ([97, 13, 10] : List Nat).filter (· ≠ 13) ≠ []
                ∧ (([97, 13, 10] : List Nat).filter (· ≠ 13)).getLast? ≠ some 10
             then 1 else 0)) :=
  ⟨by decide, by decide,
    claim_C2 [97, 13, 10] 0 true true true true 5 (by decide) (by decide)⟩

/-- C3, corrected: restricted to files that contain no NUL (`0x00`) byte.
For such files every successful `readLines` call returns a table that is
exactly `lineCount` non-null line pointers in strictly increasing buffer
order followed by the NULL sentinel, in a table allocated with
`lineCount + 1` slots.  With an embedded NUL the fill loop records fewer
pointers than `lineCount` (see `claim_C3_counterexample`). -/
theorem claim_C3 (content : List Nat) (ms : Nat) (mo ro so tOk : Bool) (e : Nat)
    (tbl : List (Option Nat)) (h0 : 0 ∉ content)
    (htbl : (readLines (FileArg.file content) ms mo ro so tOk e).lines = some tbl) :
    ∃ starts : List Nat,
      tbl = starts.map some ++ [none]
      ∧ starts.length = (readLines (FileArg.file content) ms mo ro so tOk e).lineCount
      ∧ (readLines (FileArg.file content) ms mo ro so tOk e).allocated
          = (readLines (FileArg.file content) ms mo ro so tOk e).lineCount + 1
      ∧ List.Chain' (· < ·) starts := by
  have h0f : 0 ∉ content.filter (· ≠ 13) := zero_not_mem_filter h0
  rcases readLines_success content ms mo ro so tOk e tbl h0 htbl with
    ⟨hemp, heq⟩ | ⟨hne, heq⟩
  · refine ⟨[], ?_, ?_, ?_, List.chain'_nil⟩
    · rw [heq] at htbl
      have h1 : (some [Option.none] : Option (List (Option Nat))) = some tbl := htbl
      simpa using h1.symm
    · rw [heq]; rfl
    · rw [heq]
  · refine ⟨0 :: fillGo (content.filter (· ≠ 13) ++ [0]), ?_, ?_, ?_, ?_⟩
    · rw [heq] at htbl
      have h1 : (some ((0 :: fillGo (content.filter (· ≠ 13) ++ [0])).map some
            ++ [Option.none]) : Option (List (Option Nat))) = some tbl := htbl
      exact (Option.some.inj h1).symm
    · rw [heq]
      show (0 :: fillGo (content.filter (· ≠ 13) ++ [0])).length
          = (if trailNL (content.filter (· ≠ 13)) then 0 else 1)
            + (content.filter (· ≠ 13)).count 10
      have hfl := fillGo_append_nulfree _ h0f
      rw [List.length_cons]
      by_cases ht : trailNL (content.filter (· ≠ 13)) = true
      · rw [if_pos ht] at hfl ⊢
        omega
      · rw [if_neg ht] at hfl ⊢
        omega
    · rw [heq]
    · have hch := fillGo_chain _ h0f
      rw [List.chain'_cons']
      refine ⟨?_, hch.1⟩
      intro y hy
      have hmem := List.mem_of_mem_head? hy
      have := hch.2 y hmem
      omega

/-- C3 counterexample: for the file `0x0A 0x00 0x78` the call succeeds with
`lineCount = 2` and a table allocated for 3 slots, but the slots actually
written are one line pointer followed by the sentinel: the first two slots
are not `lineCount` non-null pointers. -/
theorem claim_C3_counterexample :
    (readLines (FileArg.file [10, 0, 120]) 0 true true true true 0).lines
        = some [some 0, none]
    ∧ (readLines (FileArg.file [10, 0, 120]) 0 true true true true 0).lineCount = 2
    ∧ (([some 0, none] : List (Option Nat)).take 2).all Option.isSome = false := by
  decide

theorem claim_C3_witness :
    (0 ∉ ([97, 10, 98] : List Nat))
    ∧ ((readLines (FileArg.file [97, 10, 98]) 0 true true true true 0).lines
        = some [some 0, some 2, none])
    ∧ (∃ starts : List Nat,
        ([some 0, some 2, none] : List (Option Nat)) = starts.map some ++ [none]
        ∧ starts.length
            = (readLines (FileArg.file [97, 10, 98]) 0 true true true true 0).lineCount
        ∧ (readLines (FileArg.file [97, 10, 98]) 0 true true true true 0).allocated
            = (readLines (FileArg.file [97, 10, 98]) 0 true true true true 0).lineCount + 1
        ∧ List.Chain' (· < ·) starts) :=
  ⟨by decide, by decide,
    claim_C3 [97, 10, 98] 0 true true true true 0 [some 0, some 2, none]
      (by decide) (by decide)⟩

/-- C4, corrected: when `readLines` builds its table from empty content the
content buffer is released inside `readLines` and the table's first entry is
NULL; on every successful result a single `freeLines` call frees the content
buffer at most once and then frees the table, and `freeLines(NULL)` is a
no-op.  The original claim's identification of "zero-line table" with
"empty content" fails: a zero-line table can be built from non-empty
NUL-containing content, and then its first entry is the (non-null) buffer
(see `claim_C4_counterexample`). -/
theorem claim_C4 :
    (∀ (content : List Nat) (ms : Nat) (mo ro so tOk : Bool) (e : Nat)
        (tbl : List (Option Nat)),
      content.filter (· ≠ 13) = [] →
      (readLines (FileArg.file content) ms mo ro so tOk e).lines = some tbl →
      tbl = [none]
        ∧ (readLines (FileArg.file content) ms mo ro so tOk e).contentFrees = 1)
    ∧ (∀ (arg : FileArg) (ms : Nat) (mo ro so tOk : Bool) (e : Nat)
        (tbl : List (Option Nat)),
      (readLines arg ms mo ro so tOk e).lines = some tbl →
      (readLines arg ms mo ro so tOk e).contentFrees
          + (freeLines (readLines arg ms mo ro so tOk e).lines).contentFrees ≤ 1
        ∧ (freeLines (readLines arg ms mo ro so tOk e).lines).tableFreed = true)
    ∧ freeLines none = ⟨0, false⟩ := by
  refine ⟨?_, ?_, rfl⟩
  · intro content ms mo ro so tOk e tbl hfil htbl
    have h0 : 0 ∉ content := by
      intro hm
      have := List.filter_eq_nil_iff.mp hfil 0 hm
      simp at this
    rcases readLines_success content ms mo ro so tOk e tbl h0 htbl with
      ⟨_, heq⟩ | ⟨hne, _⟩
    · rw [heq] at htbl
      have h1 : (some [Option.none] : Option (List (Option Nat))) = some tbl := htbl
      refine ⟨(Option.some.inj h1).symm, ?_⟩
      rw [heq]
    · exact absurd hfil hne
  · intro arg ms mo ro so tOk e tbl htbl
    revert htbl
    simp only [readLines]
    split
    · split_ifs <;> intro htbl <;> simp at htbl
    · split_ifs <;> intro htbl <;> simp at htbl ⊢ <;> simp [freeLines]

/-- C4 counterexample: for the file `0x00 0x0A` (content ends in a line feed
the counting loop cannot reach because of the embedded NUL) `readLines`
succeeds and builds a zero-line table, yet the content buffer is not
released inside `readLines` and the table's first written entry is the
content buffer, not NULL.  The slots written (pointer plus sentinel) even
exceed the single slot allocated (`allocated = 1`) — a heap overflow in the
C code. -/
theorem claim_C4_counterexample :
    (readLines (FileArg.file [0, 10]) 0 true true true true 0).lineCount = 0
    ∧ (readLines (FileArg.file [0, 10]) 0 true true true true 0).contentFrees = 0
    ∧ (readLines (FileArg.file [0, 10]) 0 true true true true 0).lines
        = some [some 0, none]
    ∧ (readLines (FileArg.file [0, 10]) 0 true true true true 0).allocated = 1 := by
  decide

theorem claim_C4_witness :
    (([13] : List Nat).filter (· ≠ 13) = [])
    ∧ ((readLines (FileArg.file [13]) 0 true true true true 3).lines
        = some [Option.none])
    ∧ (([Option.none] : List (Option Nat)) = [Option.none]
        ∧ (readLines (FileArg.file [13]) 0 true true true true 3).contentFrees = 1)
    ∧ ((readLines (FileArg.file [13]) 0 true true true true 3).contentFrees
          + (freeLines
              (readLines (FileArg.file [13]) 0 true true true true 3).lines).contentFrees
          ≤ 1
        ∧ (freeLines
            (readLines (FileArg.file [13]) 0 true true true true 3).lines).tableFreed
          = true) :=
  ⟨by decide, by decide,
    claim_C4.1 [13] 0 true true true true 3 [Option.none] (by decide) (by decide),
    claim_C4.2.1 (FileArg.file [13]) 0 true true true true 3 [Option.none] (by decide)⟩
